import Mathlib

/-!
Shallow embedding of `src/main.py` (a personal task tracker: `Task` and
`TaskManager` with JSON persistence to `tasks.json`), together with proofs
about its behaviour.

Modelling conventions:
* Python `datetime.datetime` values are records of seven natural-number
  fields; comparison is lexicographic, as in CPython.
* JSON text is abstracted by the inductive `Json`; the file on disk is a
  `FileData`, which is either a JSON value or text that `json.load` rejects
  (raising `json.JSONDecodeError`).
* Python exceptions are the error side of `Except PyErr`; a `.error e`
  escaping a modelled function is an exception propagating out of the
  corresponding Python code.
* The environment is assumed to cooperate: opening/writing files succeeds
  (`IOError` never fires), so `save_tasks` is modelled as a pure state
  update that always writes.  The manager state tracks the file contents,
  a log of `print`ed messages, and a counter of `save_tasks` calls.
-/

namespace PyMain

/-- Python `datetime.datetime`: year, month, day, hour, minute, second,
microsecond.  CPython restricts these to valid calendar values with
1 ≤ year ≤ 9999; the embedding keeps the fields as plain naturals and
every concrete value used below is a valid CPython datetime. -/
structure PyDateTime where
  year : Nat
  month : Nat
  day : Nat
  hour : Nat
  minute : Nat
  second : Nat
  microsecond : Nat
deriving DecidableEq, Repr

/-- Python `datetime.max` = `datetime(9999, 12, 31, 23, 59, 59, 999999)`,
the sentinel used by `prioritize_tasks` for tasks without a due date. -/
def dtMax : PyDateTime := ⟨9999, 12, 31, 23, 59, 59, 999999⟩

/-- Three-way comparison on `Int` (CPython integer comparison). -/
def intCmp (a b : Int) : Ordering :=
  if a < b then .lt else if b < a then .gt else .eq

/-- Lexicographic three-way comparison on integer lists.  CPython compares
datetimes (and tuples) lexicographically componentwise; the sort keys
below are encoded as equal-length integer lists, on which this agrees
with CPython's tuple comparison. -/
def lexCmp : List Int → List Int → Ordering
  | [], [] => .eq
  | [], _ :: _ => .lt
  | _ :: _, [] => .gt
  | a :: xs, b :: ys =>
    match intCmp a b with
    | .eq => lexCmp xs ys
    | o => o

/-- Component list of a datetime, in comparison order. -/
def dtKey (d : PyDateTime) : List Int :=
  [d.year, d.month, d.day, d.hour, d.minute, d.second, d.microsecond]

/-- Left-pad the decimal representation of `n` with zeros to width `w`
(Python `"%0Nd"` formatting). -/
def zfill (w : Nat) (n : Nat) : String :=
  let s := toString n
  String.mk (List.replicate (w - s.length) '0') ++ s

/-- Python `str(datetime)`: `"YYYY-MM-DD HH:MM:SS"`, with `".ffffff"`
appended when the microsecond field is nonzero.  This is what
`json.dump(..., default=str)` writes for a due date. -/
def pyStrDatetime (d : PyDateTime) : String :=
  zfill 4 d.year ++ "-" ++ zfill 2 d.month ++ "-" ++ zfill 2 d.day ++ " " ++
  zfill 2 d.hour ++ ":" ++ zfill 2 d.minute ++ ":" ++ zfill 2 d.second ++
  (if d.microsecond = 0 then "" else "." ++ zfill 6 d.microsecond)

/-- Python `d.strftime("%Y-%m-%d")`, used by `list_tasks`. -/
def strftimeYmd (d : PyDateTime) : String :=
  zfill 4 d.year ++ "-" ++ zfill 2 d.month ++ "-" ++ zfill 2 d.day

/-- Leap-year test of the proleptic Gregorian calendar (CPython
`calendar.isleap`). -/
def isLeapYear (y : Nat) : Bool :=
  (y % 4 = 0 && y % 100 ≠ 0) || y % 400 = 0

/-- Number of days in month `m` of year `y`. -/
def daysInMonth (y m : Nat) : Nat :=
  if m = 2 then (if isLeapYear y then 29 else 28)
  else if m = 4 || m = 6 || m = 9 || m = 11 then 30
  else 31

/-- Day number of a proleptic-Gregorian civil date (days since 1970-01-01,
negative before).  Standard civil-calendar conversion with truncating
integer division, used to model `datetime + timedelta(days=n)`. -/
def daysFromCivil (y m d : Int) : Int :=
  let y := if m ≤ 2 then y - 1 else y
  let era := (if 0 ≤ y then y else y - 399) / 400
  let yoe := y - era * 400
  let mp := (m + 9) % 12
  let doy := (153 * mp + 2) / 5 + d - 1
  let doe := yoe * 365 + yoe / 4 - yoe / 100 + doy
  era * 146097 + doe - 719468

/-- Inverse of `daysFromCivil`: civil date of a day number. -/
def civilFromDays (z : Int) : Int × Int × Int :=
  let z := z + 719468
  let era := (if 0 ≤ z then z else z - 146096) / 146097
  let doe := z - era * 146097
  let yoe := (doe - doe / 1460 + doe / 36524 - doe / 146096) / 365
  let y := yoe + era * 400
  let doy := doe - (365 * yoe + yoe / 4 - yoe / 100)
  let mp := (5 * doy + 2) / 153
  let d := doy - (153 * mp + 2) / 5 + 1
  let m := if mp < 10 then mp + 3 else mp - 9
  (if m ≤ 2 then y + 1 else y, m, d)

/-- Python `dt + timedelta(days=days)`: shifts the calendar date, keeping
the time of day.  (CPython raises `OverflowError` when the result leaves
1 ≤ year ≤ 9999; the embedding keeps the arithmetic value instead — no
theorem below depends on out-of-range results.) -/
def dtAddDays (dt : PyDateTime) (days : Int) : PyDateTime :=
  let z := daysFromCivil dt.year dt.month dt.day + days
  let c := civilFromDays z
  { dt with year := c.1.toNat, month := c.2.1.toNat, day := c.2.2.toNat }

/-- JSON values, abstracting the text in `tasks.json`.  All numbers that
occur in this program are integers. -/
inductive Json where
  | null
  | num (n : Int)
  | str (s : String)
  | arr (elems : List Json)
  | obj (fields : List (String × Json))

/-- Python exceptions relevant to `main.py`.  `unmodeled` marks file
contents outside the embedding's typed fragment (a record field holding a
JSON value of a type the program never writes there); no theorem below
touches such contents. -/
inductive PyErr where
  | ioError
  | jsonDecodeError
  | valueError
  | typeError
  | keyError (key : String)
  | unmodeled
deriving DecidableEq, Repr

/-- Contents of `tasks.json`: either text that `json.load` rejects with
`json.JSONDecodeError`, or text that parses to the given JSON value. -/
inductive FileData where
  | malformed
  | json (j : Json)

/-- Python `json.load` on the file contents. -/
def jsonLoad : FileData → Except PyErr Json
  | .malformed => .error .jsonDecodeError
  | .json j => .ok j

/-- One task record (`class Task` of `main.py`).  `__init__` sets
`status = "Pending"`; `load_tasks` later overwrites `status` with whatever
string the file holds. -/
structure Task where
  task_id : Int
  name : String
  priority : Int
  due_date : Option PyDateTime
  status : String
deriving DecidableEq, Repr

/-- Method `Task.mark_complete`: `self.status = "Completed"`. -/
def Task.mark_complete (t : Task) : Task :=
  { t with status := "Completed" }

/-- Method `Task.postpone(days)`: shifts the due date by `days` when one
is set; otherwise leaves the task unchanged and returns the message the
method prints. -/
def Task.postpone (t : Task) (days : Int) : Task × Option String :=
  match t.due_date with
  | some d => ({ t with due_date := some (dtAddDays d days) }, none)
  | none => (t, some ("Task " ++ t.name ++ " does not have a due date to postpone."))

/-- Serialization of the `due_date` field by
`json.dump(..., default=str)`: a `datetime` is not JSON-serializable, so
`default` applies `str` to it; `None` is natively serialized as JSON
`null` (the `default` hook is not consulted for it). -/
def dueDateToJson : Option PyDateTime → Json
  | some d => .str (pyStrDatetime d)
  | none => .null

/-- Serialization of one task: `task.__dict__`, whose keys appear in the
assignment order of `Task.__init__` (`task_id`, `name`, `priority`,
`due_date`, `status`). -/
def taskToJson (t : Task) : Json :=
  .obj [("task_id", .num t.task_id), ("name", .str t.name),
        ("priority", .num t.priority), ("due_date", dueDateToJson t.due_date),
        ("status", .str t.status)]

/-- Serialization of the whole collection:
`[task.__dict__ for task in self.tasks]`. -/
def tasksToJson (ts : List Task) : Json :=
  .arr (ts.map taskToJson)

/-- Python dict subscription `fields['k']`: first matching key, or
`KeyError`. -/
def dictGet (fields : List (String × Json)) (k : String) : Except PyErr Json :=
  match fields.find? (fun kv => kv.fst == k) with
  | some kv => .ok kv.snd
  | none => .error (.keyError k)

/-- Numeric value of a decimal digit character. -/
def digitVal (c : Char) : Nat := c.toNat - 48

/-- CPython `_strptime` directive `%Y`: exactly four decimal digits. -/
def parseYear4 : List Char → Option (Nat × List Char)
  | a :: b :: c :: d :: rest =>
    if a.isDigit && b.isDigit && c.isDigit && d.isDigit then
      some (digitVal a * 1000 + digitVal b * 100 + digitVal c * 10 + digitVal d, rest)
    else none
  | _ => none

/-- CPython `_strptime` directive `%m`: the regex `1[0-2]|0[1-9]|[1-9]`
(two digits when they form 01–12, otherwise a single digit 1–9). -/
def parseMonth : List Char → Option (Nat × List Char)
  | [] => none
  | a :: rest =>
    match rest with
    | b :: rest2 =>
      if a = '1' && ('0' ≤ b && b ≤ '2') then some (10 + digitVal b, rest2)
      else if a = '0' && ('1' ≤ b && b ≤ '9') then some (digitVal b, rest2)
      else if '1' ≤ a && a ≤ '9' then some (digitVal a, rest)
      else none
    | [] => if '1' ≤ a && a ≤ '9' then some (digitVal a, []) else none

/-- CPython `_strptime` directive `%d`: the regex
`3[01]|[12]\d|0[1-9]|[1-9]`. -/
def parseDay : List Char → Option (Nat × List Char)
  | [] => none
  | a :: rest =>
    match rest with
    | b :: rest2 =>
      if a = '3' && (b = '0' || b = '1') then some (30 + digitVal b, rest2)
      else if (a = '1' || a = '2') && b.isDigit then some (digitVal a * 10 + digitVal b, rest2)
      else if a = '0' && ('1' ≤ b && b ≤ '9') then some (digitVal b, rest2)
      else if '1' ≤ a && a ≤ '9' then some (digitVal a, rest)
      else none
    | [] => if '1' ≤ a && a ≤ '9' then some (digitVal a, []) else none

/-- Python `datetime.strptime(s, "%Y-%m-%d")`: matches the format against
the whole string (`ValueError` on mismatch or on leftover text), then
builds `datetime(year, month, day)`, which `ValueError`s on an invalid
calendar date (year 0, or day past the end of the month). -/
def strptimeYmd (s : String) : Except PyErr PyDateTime :=
  match parseYear4 s.data with
  | none => .error .valueError
  | some (y, r1) =>
    match r1 with
    | '-' :: r2 =>
      match parseMonth r2 with
      | none => .error .valueError
      | some (m, r3) =>
        match r3 with
        | '-' :: r4 =>
          match parseDay r4 with
          | none => .error .valueError
          | some (d, r5) =>
            if r5 = [] then
              if 1 ≤ y && d ≤ daysInMonth y m then .ok ⟨y, m, d, 0, 0, 0, 0⟩
              else .error .valueError
            else .error .valueError
        | _ => .error .valueError
    | _ => .error .valueError

/-- Reconstruction of one `Task` from a JSON record, as in the body of
the `for task_data in tasks_data` loop of `load_tasks`.  Failures are the
Python exceptions the loop body raises: a missing key is a `KeyError`; a
`due_date` value that is not the string `"None"` is passed to
`datetime.strptime`, which raises `TypeError` on a non-string (in
particular on JSON `null`, i.e. Python `None`) and `ValueError` on a
string that does not match `"%Y-%m-%d"`.  Python would assign a
non-string/non-integer JSON value verbatim to the other fields; the
embedding types those fields, so such contents map to `.unmodeled`
(no theorem below touches them).  Lookups and conversions happen in the
evaluation order of the Python keyword arguments. -/
def taskFromJson (j : Json) : Except PyErr Task :=
  match j with
  | .obj fields => do
    let idj ← dictGet fields "task_id"
    let task_id ← match idj with
      | .num n => Except.ok n
      | _ => Except.error .unmodeled
    let namej ← dictGet fields "name"
    let name ← match namej with
      | .str s => Except.ok s
      | _ => Except.error .unmodeled
    let prj ← dictGet fields "priority"
    let priority ← match prj with
      | .num n => Except.ok n
      | _ => Except.error .unmodeled
    let duej ← dictGet fields "due_date"
    let due_date ← match duej with
      | .str s => if s = "None" then Except.ok none else (strptimeYmd s).map some
      | _ => Except.error .typeError
    let stj ← dictGet fields "status"
    let status ← match stj with
      | .str s => Except.ok s
      | _ => Except.error .unmodeled
    Except.ok { task_id := task_id, name := name, priority := priority,
                due_date := due_date, status := status }
  | .str _ => .error .typeError
  | .num _ => .error .typeError
  | .null => .error .typeError
  | .arr _ => .error .typeError

/-- Iteration of the `load_tasks` loop over the parsed JSON value.
Iterating a JSON array visits its elements; subscripting a non-dict
element raises `TypeError` (matching `taskFromJson` on non-objects).
Iterating a non-empty dict visits its keys (strings), and subscripting a
string raises `TypeError`; an empty dict or empty string yields no
iterations; `None` and numbers are not iterable (`TypeError`).  (On a
mid-loop exception Python has already appended the earlier tasks, but the
exception escapes `TaskManager.__init__`, so the partial list is never
observable; the model returns only the error.) -/
def tasksFromJson (j : Json) : Except PyErr (List Task) :=
  match j with
  | .arr elems => elems.mapM taskFromJson
  | .obj [] => .ok []
  | .obj (_ :: _) => .error .typeError
  | .str s => if s.isEmpty then .ok [] else .error .typeError
  | _ => .error .typeError

/-- Exceptions caught by the `except (IOError, json.JSONDecodeError)`
clause of `load_tasks`. -/
def caughtByLoad (e : PyErr) : Bool :=
  match e with
  | .ioError => true
  | .jsonDecodeError => true
  | _ => false

/-- Method `TaskManager.load_tasks`, run once from `__init__`.  A missing
file (`none`) is skipped by the `os.path.isfile` guard.  Otherwise the
file is parsed and the tasks rebuilt; `IOError` and `JSONDecodeError` are
caught (`"Error loading tasks: ..."` is printed and the collection stays
empty), while any other exception propagates out as `.error`. -/
def load_tasks (file : Option FileData) : Except PyErr (List Task) :=
  match file with
  | none => .ok []
  | some fd =>
    match (jsonLoad fd).bind tasksFromJson with
    | .ok ts => .ok ts
    | .error e => if caughtByLoad e then .ok [] else .error e

/-- State of a `TaskManager`: the in-memory collection, the contents of
`tasks.json` (`none` = no such file), the lines printed so far, and how
many times `save_tasks` ran. -/
structure TaskManager where
  tasks : List Task
  file : Option FileData
  log : List String
  saveCount : Nat

/-- Constructor `TaskManager()`: starts with an empty collection, then
runs `load_tasks` on the given file; an exception escaping `load_tasks`
escapes the constructor. -/
def mkTaskManager (file : Option FileData) : Except PyErr TaskManager :=
  match load_tasks file with
  | .ok ts => .ok { tasks := ts, file := file, log := [], saveCount := 0 }
  | .error e => .error e

/-- A manager constructed with no `tasks.json` present. -/
def newManager : TaskManager :=
  { tasks := [], file := none, log := [], saveCount := 0 }

/-- Method `TaskManager.save_tasks`: overwrites `tasks.json` with the
serialized collection (writes are assumed to succeed; the `IOError`
branch never fires). -/
def save_tasks (m : TaskManager) : TaskManager :=
  { m with file := some (.json (tasksToJson m.tasks)), saveCount := m.saveCount + 1 }

/-- Method `TaskManager.add_task`: a fresh task gets
`task_id = len(self.tasks) + 1`, is appended, and the collection is
saved. -/
def add_task (m : TaskManager) (name : String) (priority : Int)
    (due_date : Option PyDateTime) : TaskManager :=
  let task_id : Int := m.tasks.length + 1
  let t : Task := { task_id := task_id, name := name, priority := priority,
                    due_date := due_date, status := "Pending" }
  save_tasks { m with tasks := m.tasks ++ [t] }

/-- Method `TaskManager.get_task_by_id`: first task with a matching id
(`next` over a generator), or `None` after the `StopIteration` handler. -/
def get_task_by_id (tasks : List Task) (task_id : Int) : Option Task :=
  tasks.find? (fun t => t.task_id == task_id)

/-- Message printed by `get_task_by_id` when the id is unknown. -/
def notFoundMsg (task_id : Int) : String :=
  "Task with ID " ++ toString task_id ++ " not found."

/-- Method `TaskManager.remove_task`: on a hit, `list.remove` drops the
found object (the first matching element) and the collection is saved; on
a miss only the not-found message is printed. -/
def remove_task (m : TaskManager) (task_id : Int) : TaskManager :=
  match get_task_by_id m.tasks task_id with
  | none => { m with log := m.log ++ [notFoundMsg task_id] }
  | some t =>
    let m2 := save_tasks { m with tasks := m.tasks.erase t }
    { m2 with log := m2.log ++ ["Task " ++ toString task_id ++ " removed successfully."] }

/-- Replacement of the first element satisfying `p` by its image under
`f`; models an in-place mutation of the object `get_task_by_id` found. -/
def modifyFirst (p : Task → Bool) (f : Task → Task) : List Task → List Task
  | [] => []
  | t :: ts => if p t then f t :: ts else t :: modifyFirst p f ts

/-- Method `TaskManager.mark_task_complete`: on a hit, mutates the found
task via `Task.mark_complete` and saves; on a miss only the not-found
message is printed. -/
def mark_task_complete (m : TaskManager) (task_id : Int) : TaskManager :=
  match get_task_by_id m.tasks task_id with
  | none => { m with log := m.log ++ [notFoundMsg task_id] }
  | some _ =>
    let m2 := save_tasks
      { m with tasks := modifyFirst (fun t => t.task_id == task_id) Task.mark_complete m.tasks }
    { m2 with log := m2.log ++ ["Task " ++ toString task_id ++ " marked as complete."] }

/-- Sort key of `prioritize_tasks`:
`(x.priority, x.due_date if x.due_date else datetime.max)`, flattened to
an integer list compared lexicographically.  A `datetime` object is
always truthy in Python, so the sentinel is used exactly when `due_date`
is `None`. -/
def sortKey (t : Task) : List Int :=
  t.priority :: dtKey (match t.due_date with | some d => d | none => dtMax)

/-- Key order used by `list.sort(key=...)`: `a` may precede `b` iff the
key of `a` does not exceed the key of `b`. -/
def taskLe (a b : Task) : Bool :=
  match lexCmp (sortKey a) (sortKey b) with
  | .gt => false
  | _ => true

/-- Method `TaskManager.prioritize_tasks`: stably sorts the collection by
the key above (CPython `list.sort` is stable and ascending), saves, and
prints a success message.  Comparisons between these keys cannot raise,
so the `except` branch of the method is dead in the typed model. -/
def prioritize_tasks (m : TaskManager) : TaskManager :=
  let m2 := save_tasks { m with tasks := m.tasks.mergeSort taskLe }
  { m2 with log := m2.log ++ ["Tasks have been prioritized successfully."] }

/-- Line printed by `list_tasks` for one task. -/
def taskLine (t : Task) : String :=
  let due := match t.due_date with
    | some d => strftimeYmd d
    | none => "No due date"
  "[" ++ toString t.task_id ++ "] " ++ t.name ++ " - Priority: " ++
    toString t.priority ++ ", Due: " ++ due ++ ", Status: " ++ t.status

/-- Method `TaskManager.list_tasks`: prints one line per task in current
collection order; mutates nothing. -/
def list_tasks (m : TaskManager) : TaskManager :=
  { m with log := m.log ++ m.tasks.map taskLine }

/-- Operations reachable through the public interface once a manager
exists: every `TaskManager` method plus `Task.postpone` invoked, as a
driver would, on the task `get_task_by_id` returns. -/
inductive Op where
  | add (name : String) (priority : Int) (due_date : Option PyDateTime)
  | listTasks
  | remove (task_id : Int)
  | prioritize
  | markComplete (task_id : Int)
  | save
  | postpone (task_id : Int) (days : Int)

/-- Effect of one public operation on the manager state. -/
def applyOp (m : TaskManager) : Op → TaskManager
  | .add n p d => add_task m n p d
  | .listTasks => list_tasks m
  | .remove i => remove_task m i
  | .prioritize => prioritize_tasks m
  | .markComplete i => mark_task_complete m i
  | .save => save_tasks m
  | .postpone i days =>
    match get_task_by_id m.tasks i with
    | none => { m with log := m.log ++ [notFoundMsg i] }
    | some t =>
      { m with tasks := modifyFirst (fun u => u.task_id == i) (fun u => (u.postpone days).fst) m.tasks,
               log := m.log ++ ((t.postpone days).snd.toList) }

/-- Sequence of `add_task` calls with the given (name, priority,
due date) arguments. -/
def addAll (m : TaskManager) (inputs : List (String × Int × Option PyDateTime)) : TaskManager :=
  inputs.foldl (fun acc inp => add_task acc inp.1 inp.2.1 inp.2.2) m

/-- Arithmetic progression `[start, start+1, ..., start+n-1]` of
integers. -/
def rangeInts (start : Int) : Nat → List Int
  | 0 => []
  | n + 1 => start :: rangeInts (start + 1) n

theorem intCmp_eq_lt {a b : Int} : intCmp a b = .lt ↔ a < b := by
  unfold intCmp
  split_ifs with h1 h2
  · simp [h1]
  · simp only [reduceCtorEq, false_iff]
    omega
  · simp only [reduceCtorEq, false_iff]
    omega

theorem intCmp_eq_gt {a b : Int} : intCmp a b = .gt ↔ b < a := by
  unfold intCmp
  split_ifs with h1 h2
  · simp only [reduceCtorEq, false_iff]
    omega
  · simp [h2]
  · simp only [reduceCtorEq, false_iff]
    omega

theorem intCmp_eq_eq {a b : Int} : intCmp a b = .eq ↔ a = b := by
  unfold intCmp
  split_ifs with h1 h2
  · simp only [reduceCtorEq, false_iff]
    omega
  · simp only [reduceCtorEq, false_iff]
    omega
  · simp only [true_iff]
    omega

theorem intCmp_swap (a b : Int) : (intCmp a b).swap = intCmp b a := by
  unfold intCmp
  split_ifs <;> first | rfl | omega

theorem lexCmp_swap (xs ys : List Int) : (lexCmp xs ys).swap = lexCmp ys xs := by
  induction xs generalizing ys with
  | nil => cases ys <;> rfl
  | cons a xs ih =>
    cases ys with
    | nil => rfl
    | cons b ys =>
      cases h : intCmp a b with
      | lt =>
        have hba : intCmp b a = .gt := by
          rw [← intCmp_swap a b, h]
          rfl
        simp only [lexCmp, h, hba]
        rfl
      | eq =>
        have hba : intCmp b a = .eq := by
          rw [← intCmp_swap a b, h]
          rfl
        simp only [lexCmp, h, hba]
        exact ih ys
      | gt =>
        have hba : intCmp b a = .lt := by
          rw [← intCmp_swap a b, h]
          rfl
        simp only [lexCmp, h, hba]
        rfl

theorem lexCmp_eq_iff (xs ys : List Int) : lexCmp xs ys = .eq ↔ xs = ys := by
  induction xs generalizing ys with
  | nil => cases ys <;> simp [lexCmp]
  | cons a xs ih =>
    cases ys with
    | nil => simp [lexCmp]
    | cons b ys =>
      cases h : intCmp a b with
      | lt =>
        have hne : a ≠ b := by
          intro hab
          rw [hab, intCmp_eq_eq.mpr rfl] at h
          cases h
        simp [lexCmp, h, hne]
      | eq =>
        have hab : a = b := intCmp_eq_eq.mp h
        subst hab
        simp [lexCmp, intCmp_eq_eq.mpr rfl, ih]
      | gt =>
        have hne : a ≠ b := by
          intro hab
          rw [hab, intCmp_eq_eq.mpr rfl] at h
          cases h
        simp [lexCmp, h, hne]

theorem lexCmp_nil_left_ne_gt (ys : List Int) : lexCmp [] ys ≠ .gt := by
  cases ys <;> simp [lexCmp]

theorem lexCmp_trans_le {xs ys zs : List Int} (h1 : lexCmp xs ys ≠ .gt)
    (h2 : lexCmp ys zs ≠ .gt) : lexCmp xs zs ≠ .gt := by
  induction xs generalizing ys zs with
  | nil => exact lexCmp_nil_left_ne_gt zs
  | cons a xs ih =>
    cases ys with
    | nil => cases zs <;> simp [lexCmp] at h1
    | cons b ys =>
      cases zs with
      | nil => simp [lexCmp] at h2
      | cons c zs =>
        cases hab : intCmp a b with
        | gt => simp [lexCmp, hab] at h1
        | lt =>
          cases hbc : intCmp b c with
          | gt => simp [lexCmp, hbc] at h2
          | lt =>
            have hac : intCmp a c = .lt :=
              intCmp_eq_lt.mpr (lt_trans (intCmp_eq_lt.mp hab) (intCmp_eq_lt.mp hbc))
            simp [lexCmp, hac]
          | eq =>
            have hac : intCmp a c = .lt := by
              rw [← intCmp_eq_eq.mp hbc]
              exact hab
            simp [lexCmp, hac]
        | eq =>
          cases hbc : intCmp b c with
          | gt => simp [lexCmp, hbc] at h2
          | lt =>
            have hac : intCmp a c = .lt := by
              rw [intCmp_eq_eq.mp hab]
              exact hbc
            simp [lexCmp, hac]
          | eq =>
            have hac : intCmp a c = .eq := by
              rw [intCmp_eq_eq.mp hab]
              exact hbc
            simp only [lexCmp, hab] at h1
            simp only [lexCmp, hbc] at h2
            simp only [lexCmp, hac]
            exact ih h1 h2

theorem taskLe_iff {a b : Task} : taskLe a b = true ↔ lexCmp (sortKey a) (sortKey b) ≠ .gt := by
  unfold taskLe
  cases h : lexCmp (sortKey a) (sortKey b) <;> simp [h]

/-- The sort order of `prioritize_tasks` is transitive. -/
theorem taskLe_trans (a b c : Task) (h1 : taskLe a b = true) (h2 : taskLe b c = true) :
    taskLe a c = true :=
  taskLe_iff.mpr (lexCmp_trans_le (taskLe_iff.mp h1) (taskLe_iff.mp h2))

/-- The sort order of `prioritize_tasks` is total. -/
theorem taskLe_total (a b : Task) : (taskLe a b || taskLe b a) = true := by
  cases h : lexCmp (sortKey a) (sortKey b) with
  | lt =>
    have hle : taskLe a b = true := by
      unfold taskLe
      rw [h]
    simp [hle]
  | eq =>
    have hle : taskLe a b = true := by
      unfold taskLe
      rw [h]
    simp [hle]
  | gt =>
    have hba : lexCmp (sortKey b) (sortKey a) = .lt := by
      rw [← lexCmp_swap (sortKey a) (sortKey b), h]
      rfl
    have hle : taskLe b a = true := by
      unfold taskLe
      rw [hba]
    simp [hle]

theorem taskLe_refl (a : Task) : taskLe a a = true := by
  apply taskLe_iff.mpr
  rw [(lexCmp_eq_iff (sortKey a) (sortKey a)).mpr rfl]
  simp

/-- Tasks with equal sort keys compare `taskLe` in both directions. -/
theorem taskLe_of_sortKey_eq {a b : Task} (h : sortKey a = sortKey b) : taskLe a b = true := by
  apply taskLe_iff.mpr
  rw [h, (lexCmp_eq_iff (sortKey b) (sortKey b)).mpr rfl]
  simp

theorem lexCmp_cons_le_head {a b : Int} {xs ys : List Int}
    (h : lexCmp (a :: xs) (b :: ys) ≠ .gt) : a ≤ b := by
  by_contra hab
  have : intCmp a b = .gt := intCmp_eq_gt.mpr (by omega)
  simp [lexCmp, this] at h

theorem lexCmp_cons_same_head (x : Int) (xs ys : List Int) :
    lexCmp (x :: xs) (x :: ys) = lexCmp xs ys := by
  simp [lexCmp, intCmp_eq_eq.mpr rfl]

/-- In a list that is pairwise ordered by `taskLe`, any member `a` that
the order forbids after `b` (that is, `taskLe b a = false`) occurs
before `b`: the pair `[a, b]` is a sublist. -/
theorem pairwise_pair_sublist {r : List Task}
    (hp : List.Pairwise (fun x y => taskLe x y = true) r)
    {a b : Task} (ha : a ∈ r) (hb : b ∈ r) (hba : taskLe b a = false) :
    [a, b].Sublist r := by
  induction r with
  | nil => cases ha
  | cons x r ih =>
    have hx := (List.pairwise_cons.mp hp).1
    have hp2 := (List.pairwise_cons.mp hp).2
    rcases List.mem_cons.mp ha with ha1 | ha2
    · rcases List.mem_cons.mp hb with hb1 | hb2
      · exfalso
        rw [ha1, hb1, taskLe_refl x] at hba
        exact Bool.noConfusion hba
      · rw [ha1]
        exact List.Sublist.cons₂ x (List.singleton_sublist.mpr hb2)
    · rcases List.mem_cons.mp hb with hb1 | hb2
      · exfalso
        rw [hb1, hx a ha2] at hba
        exact Bool.noConfusion hba
      · exact List.Sublist.cons x (ih hp2 ha2 hb2)

/-- Members of `modifyFirst p f l` are members of `l`, except possibly
one image `f t` of a member `t` satisfying `p`. -/
theorem modifyFirst_mem {p : Task → Bool} {f : Task → Task} {l : List Task} {u : Task}
    (h : u ∈ modifyFirst p f l) :
    u ∈ l ∨ ∃ t, t ∈ l ∧ p t = true ∧ u = f t := by
  induction l with
  | nil => cases h
  | cons x xs ih =>
    by_cases hx : p x
    · rw [modifyFirst, if_pos hx] at h
      rcases List.mem_cons.mp h with rfl | h2
      · exact Or.inr ⟨x, List.mem_cons_self x xs, hx, rfl⟩
      · exact Or.inl (List.mem_cons_of_mem x h2)
    · rw [modifyFirst, if_neg hx] at h
      rcases List.mem_cons.mp h with rfl | h2
      · exact Or.inl (List.mem_cons_self u xs)
      · rcases ih h2 with h3 | ⟨t, ht, hpt, rfl⟩
        · exact Or.inl (List.mem_cons_of_mem x h3)
        · exact Or.inr ⟨t, List.mem_cons_of_mem x ht, hpt, rfl⟩

/-- `Task.postpone` only ever touches the due date. -/
theorem postpone_fst_fields (t : Task) (days : Int) :
    (t.postpone days).fst.task_id = t.task_id ∧ (t.postpone days).fst.name = t.name ∧
    (t.postpone days).fst.priority = t.priority ∧ (t.postpone days).fst.status = t.status := by
  unfold Task.postpone
  cases t.due_date <;> simp

/-- `Task.mark_complete` only ever touches the status. -/
theorem mark_complete_fields (t : Task) :
    t.mark_complete.task_id = t.task_id ∧ t.mark_complete.name = t.name ∧
    t.mark_complete.priority = t.priority ∧ t.mark_complete.status = "Completed" := by
  unfold Task.mark_complete
  simp

/-- The collection after `prioritize_tasks` is the stable sort of the
collection before it. -/
theorem prioritize_tasks_tasks (m : TaskManager) :
    (prioritize_tasks m).tasks = m.tasks.mergeSort taskLe := rfl

/-- The sorted collection is pairwise ordered by `taskLe`. -/
theorem prioritize_pairwise (m : TaskManager) :
    List.Pairwise (fun x y => taskLe x y = true) (prioritize_tasks m).tasks := by
  rw [prioritize_tasks_tasks]
  exact List.sorted_mergeSort taskLe_trans taskLe_total m.tasks

/-- Fixture: a pending task without a due date. -/
def sampleTaskNoDue : Task :=
  { task_id := 1, name := "a", priority := 1, due_date := none, status := "Pending" }

/-- Fixture: a pending task due 2026-10-14 (midnight, exactly the value
`strptime` would produce for that date). -/
def sampleTaskDue : Task :=
  { task_id := 1, name := "b", priority := 2, due_date := some ⟨2026, 10, 14, 0, 0, 0, 0⟩,
    status := "Pending" }

/-- Fixture: a store holding only `sampleTaskNoDue`. -/
def mgrNoDue : TaskManager :=
  { tasks := [sampleTaskNoDue], file := none, log := [], saveCount := 0 }

/-- Fixture: a store holding only `sampleTaskDue`. -/
def mgrDue : TaskManager :=
  { tasks := [sampleTaskDue], file := none, log := [], saveCount := 0 }

/-- C1: the claimed save/load round trip does not hold — it crashes.
`save_tasks` writes a missing due date as JSON `null` and a present one as
`str(datetime)` (with a time-of-day part), while `load_tasks` expects the
literal string `"None"` or a `"%Y-%m-%d"` date.  Constructing a fresh
manager from the saved file raises an uncaught `TypeError` (null due
date) or `ValueError` (formatted due date) instead of reconstructing the
collection. -/
theorem C1_roundtrip_crashes :
    mkTaskManager (save_tasks mgrNoDue).file = .error PyErr.typeError ∧
    mkTaskManager (save_tasks mgrDue).file = .error PyErr.valueError :=
  ⟨rfl, rfl⟩

/-- C2: `save_tasks` does not serialize dates in the claimed format.  A
present due date is written as `str(datetime)` = `"YYYY-MM-DD HH:MM:SS"`
(not `"YYYY-MM-DD"`), and an absent one as JSON `null` (not the literal
text `"None"`). -/
theorem C2_save_date_format :
    taskToJson sampleTaskDue =
      Json.obj [("task_id", .num 1), ("name", .str "b"), ("priority", .num 2),
                ("due_date", .str "2026-10-14 00:00:00"), ("status", .str "Pending")] ∧
    taskToJson sampleTaskNoDue =
      Json.obj [("task_id", .num 1), ("name", .str "a"), ("priority", .num 1),
                ("due_date", Json.null), ("status", .str "Pending")] ∧
    ("2026-10-14 00:00:00" : String) ≠ "2026-10-14" ∧
    Json.null ≠ Json.str "None" := by
  refine ⟨rfl, rfl, by decide, ?_⟩
  intro h
  exact Json.noConfusion h

/-- Fixture: well-formed JSON whose single record has a `due_date` the
`"%Y-%m-%d"` parse rejects. -/
def badDateFile : FileData :=
  .json (.arr [.obj [("task_id", .num 1), ("name", .str "a"), ("priority", .num 1),
                     ("due_date", .str "oops"), ("status", .str "Pending")]])

/-- C3: not every failure is caught.  `load_tasks` catches only `IOError`
and `json.JSONDecodeError`; on well-formed JSON whose `due_date` text does
not match `"%Y-%m-%d"`, `datetime.strptime` raises a `ValueError` that
propagates out of the constructor (while truly malformed JSON is caught
and yields the empty collection, as is a missing file). -/
theorem C3_load_uncaught_valueError :
    load_tasks (some badDateFile) = .error PyErr.valueError ∧
    load_tasks (some .malformed) = .ok [] ∧
    load_tasks none = .ok [] :=
  ⟨rfl, rfl, rfl⟩

/-- Fixture for C9: add two tasks, remove the first, add a third.  The
third id is `len + 1 = 2`, colliding with the surviving task's id. -/
def dupRun : TaskManager :=
  add_task (remove_task (add_task (add_task newManager "a" 1 none) "b" 1 none) 1) "c" 1 none

/-- C9: ids derive from the collection length at insertion time, so after
a removal an `add_task` can assign an id already present: the run
add "a", add "b", remove 1, add "c" leaves two tasks both with id 2. -/
theorem C9_duplicate_id_after_remove :
    dupRun.tasks.map Task.task_id = [2, 2] ∧
    ¬ (dupRun.tasks.map Task.task_id).Nodup := by
  refine ⟨by decide, by decide⟩

/-- Fixture for C10: a parseable file whose `status` field is neither
`"Pending"` nor `"Completed"`. -/
def weirdStatusFile : FileData :=
  .json (.arr [.obj [("task_id", .num 1), ("name", .str "a"), ("priority", .num 1),
                     ("due_date", .str "None"), ("status", .str "Weird")]])

/-- C10: `load_tasks` assigns the stored status string verbatim, without
validating it: a fresh manager built from `weirdStatusFile` holds a task
whose status is `"Weird"`, outside the {Pending, Completed} enumeration. -/
theorem C10_status_not_validated :
    mkTaskManager (some weirdStatusFile) =
      .ok { tasks := [{ task_id := 1, name := "a", priority := 1, due_date := none,
                        status := "Weird" }],
            file := some weirdStatusFile, log := [], saveCount := 0 } ∧
    ("Weird" : String) ≠ "Pending" ∧ ("Weird" : String) ≠ "Completed" :=
  ⟨rfl, by decide, by decide⟩

theorem add_task_tasks (m : TaskManager) (n : String) (p : Int) (d : Option PyDateTime) :
    (add_task m n p d).tasks
      = m.tasks ++ [{ task_id := (m.tasks.length : Int) + 1, name := n, priority := p,
                      due_date := d, status := "Pending" }] := rfl

theorem addAll_ids (inputs : List (String × Int × Option PyDateTime)) :
    ∀ m : TaskManager,
      (addAll m inputs).tasks.map Task.task_id
        = m.tasks.map Task.task_id ++ rangeInts ((m.tasks.length : Int) + 1) inputs.length := by
  induction inputs with
  | nil =>
    intro m
    simp [addAll, rangeInts]
  | cons x xs ih =>
    intro m
    have h1 : addAll m (x :: xs) = addAll (add_task m x.1 x.2.1 x.2.2) xs := rfl
    rw [h1, ih, add_task_tasks]
    simp only [List.map_append, List.length_append, List.map_cons, List.map_nil,
      List.length_cons, List.length_nil, List.append_assoc, List.singleton_append,
      List.length, rangeInts]
    have h2 : ((m.tasks.length + 1 : Nat) : Int) + 1 = ((m.tasks.length : Int) + 1) + 1 := by
      push_cast
      ring
    rw [h2]

/-- C4: starting from an empty store, a sequence of N `add_task` calls
with no removals interleaved assigns exactly the ids 1, 2, ..., N, in
call order. -/
theorem C4_add_ids_one_to_n (inputs : List (String × Int × Option PyDateTime)) :
    (addAll newManager inputs).tasks.map Task.task_id = rangeInts 1 inputs.length := by
  have h := addAll_ids inputs newManager
  simpa [newManager] using h

/-- C6: `prioritize_tasks` is idempotent — applying it twice yields the
same collection order as applying it once (a stable sort of an already
sorted list is the identity). -/
theorem C6_prioritize_idempotent (m : TaskManager) :
    (prioritize_tasks (prioritize_tasks m)).tasks = (prioritize_tasks m).tasks := by
  rw [prioritize_tasks_tasks (prioritize_tasks m), prioritize_tasks_tasks m]
  exact List.mergeSort_of_sorted (List.sorted_mergeSort taskLe_trans taskLe_total m.tasks)

theorem taskLe_false_of_priority_lt {a b : Task} (h : a.priority < b.priority) :
    taskLe b a = false := by
  have hh : intCmp b.priority a.priority = .gt := intCmp_eq_gt.mpr h
  unfold taskLe sortKey
  simp [lexCmp, hh]

theorem sortKey_of_due {a : Task} {d : PyDateTime} (h : a.due_date = some d) :
    sortKey a = a.priority :: dtKey d := by
  unfold sortKey
  rw [h]

theorem sortKey_of_no_due {a : Task} (h : a.due_date = none) :
    sortKey a = a.priority :: dtKey dtMax := by
  unfold sortKey
  rw [h]

theorem taskLe_false_of_due_lt_max {a b : Task} {d : PyDateTime}
    (hpr : a.priority = b.priority) (hda : a.due_date = some d)
    (hlt : lexCmp (dtKey d) (dtKey dtMax) = .lt) (hdb : b.due_date = none) :
    taskLe b a = false := by
  have hgt : lexCmp (dtKey dtMax) (dtKey d) = .gt := by
    rw [← lexCmp_swap (dtKey d) (dtKey dtMax), hlt]
    rfl
  unfold taskLe
  rw [sortKey_of_no_due hdb, sortKey_of_due hda, ← hpr, lexCmp_cons_same_head, hgt]

/-- C5 (amended): after `prioritize_tasks`, (1) a task of strictly
smaller priority is ordered before one of larger priority regardless of
due dates; (2) at equal priority, a task whose due date is strictly
earlier than `datetime.max` is ordered before a task without a due date
(the sort maps a missing due date to the sentinel `datetime.max`, so a
task due exactly `datetime.max` ties with due-date-less tasks instead of
preceding them — see the counterexample); (3) the sort is stable: tasks
with equal sort keys keep their prior relative order.  "a is ordered
before b" is expressed as `[a, b]` being a sublist of the collection. -/
theorem C5_prioritize_order (m : TaskManager) :
    (∀ a ∈ (prioritize_tasks m).tasks, ∀ b ∈ (prioritize_tasks m).tasks,
        a.priority < b.priority → [a, b].Sublist (prioritize_tasks m).tasks) ∧
    (∀ a ∈ (prioritize_tasks m).tasks, ∀ b ∈ (prioritize_tasks m).tasks, ∀ d : PyDateTime,
        a.priority = b.priority → a.due_date = some d →
        lexCmp (dtKey d) (dtKey dtMax) = .lt → b.due_date = none →
        [a, b].Sublist (prioritize_tasks m).tasks) ∧
    (∀ a b : Task, sortKey a = sortKey b → [a, b].Sublist m.tasks →
        [a, b].Sublist (prioritize_tasks m).tasks) := by
  refine ⟨?_, ?_, ?_⟩
  · intro a ha b hb hpr
    exact pairwise_pair_sublist (prioritize_pairwise m) ha hb (taskLe_false_of_priority_lt hpr)
  · intro a ha b hb d hpr hda hlt hdb
    exact pairwise_pair_sublist (prioritize_pairwise m) ha hb
      (taskLe_false_of_due_lt_max hpr hda hlt hdb)
  · intro a b hk hsub
    rw [prioritize_tasks_tasks]
    exact List.pair_sublist_mergeSort taskLe_trans taskLe_total (taskLe_of_sortKey_eq hk) hsub

/-- Fixture for the C5 counterexample: no due date, listed first. -/
def cexNoDue : Task :=
  { task_id := 1, name := "a", priority := 1, due_date := none, status := "Pending" }

/-- Fixture for the C5 counterexample: due date exactly `datetime.max`,
same priority, listed second. -/
def cexMaxDue : Task :=
  { task_id := 2, name := "b", priority := 1, due_date := some dtMax, status := "Pending" }

/-- Fixture store for the C5 counterexample. -/
def cexMgr : TaskManager :=
  { tasks := [cexNoDue, cexMaxDue], file := none, log := [], saveCount := 0 }

/-- C5 counterexample: the claim "at equal priority, a task with a due
date is ordered before one without" is false as stated.  In `cexMgr` the
task due exactly `datetime.max` has the same sort key as the sentinel
used for the due-date-less task, so the stable sort keeps the
due-date-less task first. -/
theorem C5_counterexample :
    ¬ (∀ m : TaskManager, ∀ a ∈ (prioritize_tasks m).tasks,
        ∀ b ∈ (prioritize_tasks m).tasks,
        a.priority = b.priority → (∃ d, a.due_date = some d) → b.due_date = none →
        [a, b].Sublist (prioritize_tasks m).tasks) := by
  intro h
  have hpw : List.Pairwise (fun x y => taskLe x y = true) [cexNoDue, cexMaxDue] := by
    simp only [List.pairwise_cons, List.mem_singleton, List.not_mem_nil, List.Pairwise.nil,
      forall_eq, and_true]
    constructor
    · decide
    · intro t ht
      cases ht
  have hsorted : (prioritize_tasks cexMgr).tasks = [cexNoDue, cexMaxDue] := by
    rw [prioritize_tasks_tasks]
    exact List.mergeSort_of_sorted hpw
  have hmemA : cexMaxDue ∈ (prioritize_tasks cexMgr).tasks := by
    rw [hsorted]
    decide
  have hmemB : cexNoDue ∈ (prioritize_tasks cexMgr).tasks := by
    rw [hsorted]
    decide
  have hs := h cexMgr cexMaxDue hmemA cexNoDue hmemB rfl ⟨dtMax, rfl⟩ rfl
  rw [hsorted] at hs
  have heq := hs.eq_of_length (by rfl)
  have : cexMaxDue = cexNoDue := by
    injection heq
  exact absurd this (by decide)

/-- Fixture for the C5 witness: priority 1, due 2026-01-01. -/
def witA : Task :=
  { task_id := 1, name := "a", priority := 1, due_date := some ⟨2026, 1, 1, 0, 0, 0, 0⟩,
    status := "Pending" }

/-- Fixture for the C5 witness: priority 2, no due date. -/
def witB : Task :=
  { task_id := 2, name := "b", priority := 2, due_date := none, status := "Pending" }

/-- Fixture store for the C5 witness, listed against the sorted order. -/
def witMgrC5 : TaskManager :=
  { tasks := [witB, witA], file := none, log := [], saveCount := 0 }

/-- Witness for C5: in the concrete store `witMgrC5` the strictly
smaller-priority task `witA` ends up ordered before `witB`. -/
theorem C5_prioritize_order_witness :
    [witA, witB].Sublist (prioritize_tasks witMgrC5).tasks := by
  apply (C5_prioritize_order witMgrC5).1 witA ?_ witB ?_ ?_
  · rw [prioritize_tasks_tasks]
    exact (List.mergeSort_perm witMgrC5.tasks taskLe).mem_iff.mpr (by decide)
  · rw [prioritize_tasks_tasks]
    exact (List.mergeSort_perm witMgrC5.tasks taskLe).mem_iff.mpr (by decide)
  · decide

/-- C7: for an id not present in the store, `remove_task` and
`mark_task_complete` are no-ops: the whole effect is appending the
not-found message to the log — the collection, the persisted file and the
save counter are untouched (the record equality covers all fields). -/
theorem C7_unknown_id_noop (m : TaskManager) (i : Int)
    (h : ∀ t ∈ m.tasks, t.task_id ≠ i) :
    remove_task m i = { m with log := m.log ++ [notFoundMsg i] } ∧
    mark_task_complete m i = { m with log := m.log ++ [notFoundMsg i] } := by
  have hg : get_task_by_id m.tasks i = none := by
    unfold get_task_by_id
    apply List.find?_eq_none.mpr
    intro t ht
    simpa using h t ht
  constructor
  · unfold remove_task
    rw [hg]
  · unfold mark_task_complete
    rw [hg]

/-- Fixture store for the C7 witness: one task with id 7. -/
def witMgrC7 : TaskManager :=
  { tasks := [{ task_id := 7, name := "x", priority := 0, due_date := none,
                status := "Pending" }],
    file := none, log := [], saveCount := 0 }

/-- Witness for C7: id 1 is absent from `witMgrC7`, so both operations
only log the not-found message. -/
theorem C7_unknown_id_noop_witness :
    remove_task witMgrC7 1 = { witMgrC7 with log := witMgrC7.log ++ [notFoundMsg 1] } ∧
    mark_task_complete witMgrC7 1 = { witMgrC7 with log := witMgrC7.log ++ [notFoundMsg 1] } :=
  C7_unknown_id_noop witMgrC7 1 (by decide)

/-- C8: over every public operation, a task in the resulting collection
is either carried over from the input collection — same id, name and
priority, and a status that is unchanged or has moved Pending →
Completed — or is the task a `add_task` call just created (with the
fresh id and status Pending).  In particular ids never change and no
operation moves a Completed task back to Pending.  The hypothesis
restricts the store to the documented status enumeration, which every
store reachable without a hand-edited `tasks.json` satisfies. -/
theorem C8_id_and_status_invariants (m : TaskManager) (op : Op)
    (hwf : ∀ t ∈ m.tasks, t.status = "Pending" ∨ t.status = "Completed") :
    ∀ u ∈ (applyOp m op).tasks,
      (∃ t ∈ m.tasks, u.task_id = t.task_id ∧ u.name = t.name ∧ u.priority = t.priority ∧
        (u.status = t.status ∨ (t.status = "Pending" ∧ u.status = "Completed"))) ∨
      (∃ n p d, op = Op.add n p d ∧ u.task_id = (m.tasks.length : Int) + 1 ∧
        u.status = "Pending") := by
  intro u hu
  cases op with
  | add n p d =>
    rw [show (applyOp m (Op.add n p d)).tasks
        = m.tasks ++ [{ task_id := (m.tasks.length : Int) + 1, name := n, priority := p,
                        due_date := d, status := "Pending" }] from rfl] at hu
    rcases List.mem_append.mp hu with h1 | h2
    · exact Or.inl ⟨u, h1, rfl, rfl, rfl, Or.inl rfl⟩
    · rw [List.mem_singleton.mp h2]
      exact Or.inr ⟨n, p, d, rfl, rfl, rfl⟩
  | listTasks =>
    exact Or.inl ⟨u, hu, rfl, rfl, rfl, Or.inl rfl⟩
  | save =>
    exact Or.inl ⟨u, hu, rfl, rfl, rfl, Or.inl rfl⟩
  | prioritize =>
    rw [show (applyOp m Op.prioritize).tasks = m.tasks.mergeSort taskLe from rfl] at hu
    exact Or.inl ⟨u, (List.mergeSort_perm m.tasks taskLe).mem_iff.mp hu, rfl, rfl, rfl,
      Or.inl rfl⟩
  | remove i =>
    have hh : (applyOp m (Op.remove i)).tasks = (remove_task m i).tasks := rfl
    rw [hh] at hu
    unfold remove_task at hu
    cases hg : get_task_by_id m.tasks i with
    | none =>
      rw [hg] at hu
      exact Or.inl ⟨u, hu, rfl, rfl, rfl, Or.inl rfl⟩
    | some t0 =>
      rw [hg] at hu
      simp only [save_tasks] at hu
      exact Or.inl ⟨u, List.mem_of_mem_erase hu, rfl, rfl, rfl, Or.inl rfl⟩
  | markComplete i =>
    have hh : (applyOp m (Op.markComplete i)).tasks = (mark_task_complete m i).tasks := rfl
    rw [hh] at hu
    unfold mark_task_complete at hu
    cases hg : get_task_by_id m.tasks i with
    | none =>
      rw [hg] at hu
      exact Or.inl ⟨u, hu, rfl, rfl, rfl, Or.inl rfl⟩
    | some t0 =>
      rw [hg] at hu
      simp only [save_tasks] at hu
      rcases modifyFirst_mem hu with h1 | ⟨t, ht, hpt, rfl⟩
      · exact Or.inl ⟨u, h1, rfl, rfl, rfl, Or.inl rfl⟩
      · rcases hwf t ht with hst | hst
        · exact Or.inl ⟨t, ht, rfl, rfl, rfl, Or.inr ⟨hst, rfl⟩⟩
        · exact Or.inl ⟨t, ht, rfl, rfl, rfl, Or.inl (by rw [hst]; rfl)⟩
  | postpone i days =>
    cases hg : get_task_by_id m.tasks i with
    | none =>
      simp only [applyOp, hg] at hu
      exact Or.inl ⟨u, hu, rfl, rfl, rfl, Or.inl rfl⟩
    | some t0 =>
      simp only [applyOp, hg] at hu
      rcases modifyFirst_mem hu with h1 | ⟨t, ht, hpt, rfl⟩
      · exact Or.inl ⟨u, h1, rfl, rfl, rfl, Or.inl rfl⟩
      · obtain ⟨f1, f2, f3, f4⟩ := postpone_fst_fields t days
        exact Or.inl ⟨t, ht, f1, f2, f3, Or.inl f4⟩

/-- Fixture store for the C8 witness. -/
def witMgrC8 : TaskManager :=
  { tasks := [{ task_id := 1, name := "a", priority := 2, due_date := none,
                status := "Pending" }],
    file := none, log := [], saveCount := 0 }

/-- Fixture: the task of `witMgrC8` after completion. -/
def witDoneC8 : Task :=
  { task_id := 1, name := "a", priority := 2, due_date := none, status := "Completed" }

/-- Witness for C8: completing task 1 of `witMgrC8` yields a task traced
back to the original id-1 task with a Pending → Completed transition. -/
theorem C8_id_and_status_invariants_witness :
    (∃ t ∈ witMgrC8.tasks, witDoneC8.task_id = t.task_id ∧ witDoneC8.name = t.name ∧
      witDoneC8.priority = t.priority ∧
      (witDoneC8.status = t.status ∨ (t.status = "Pending" ∧ witDoneC8.status = "Completed"))) ∨
    (∃ n p d, Op.markComplete 1 = Op.add n p d ∧
      witDoneC8.task_id = (witMgrC8.tasks.length : Int) + 1 ∧ witDoneC8.status = "Pending") :=
  C8_id_and_status_invariants witMgrC8 (Op.markComplete 1) (by decide) witDoneC8 (by decide)

/-- Witness for C4: two adds from the empty store get ids `[1, 2]`. -/
theorem C4_add_ids_one_to_n_witness :
    (addAll newManager [("a", 1, none), ("b", 2, none)]).tasks.map Task.task_id
      = rangeInts 1 2 :=
  C4_add_ids_one_to_n [("a", 1, none), ("b", 2, none)]

/-- Witness for C6: idempotence at the concrete store `witMgrC7`. -/
theorem C6_prioritize_idempotent_witness :
    (prioritize_tasks (prioritize_tasks witMgrC7)).tasks = (prioritize_tasks witMgrC7).tasks :=
  C6_prioritize_idempotent witMgrC7

end PyMain
